import Mathlib

/-!
Verification of the Pimcore-to-Shopify product sync repository.

This file gives a shallow embedding of the parts of the program that the
specification talks about:

* `models.py` — the `PimcoreProduct` record and its pure transformation
  functions (`effective_web_price`, `selected_price`, `product_title`,
  `get_sanitized_html`);
* `pimcore_client.py` — `fetch_products` (response handling and per-node
  validation/mapping);
* `shopify_client.py` — `execute_graphql` (retry/backoff loop) and
  `upsert_product` (create / handle-conflict / lookup / update);
* `sync_engine.py` — `SyncEngine.run` (TSV emission);
* `0_main.py` — the engine-construction call in normal sync mode.

Python strings are modelled as `List Char` (wrapped in `String` where
convenient), Python floats as exact rationals (`Rat`; float values arising
here are short terminating decimals), JSON values as the `Json` inductive
below, and the network as explicit response/outcome parameters.  Library
behaviour that the repository calls into (Python's `html.unescape`,
`str.lower`, `re.sub` with literal patterns and `re.I`, `dict.get`,
pydantic validation) is modelled by the helper functions, each documented
at its definition.
-/

/-! ### Character and list-of-char utilities -/

/-- Case-insensitive character comparison, modelling `re.IGNORECASE`
matching on the ASCII letters that appear in the patterns used by the
program (`<h2>`, `</h2>`). -/
def ciEq (a b : Char) : Bool := a.toLower == b.toLower

/-- Case-insensitive prefix test: does `p` match the beginning of `s`
up to `ciEq`? -/
def ciStarts : List Char → List Char → Bool
  | [], _ => true
  | _ :: _, [] => false
  | a :: as, b :: bs => ciEq a b && ciStarts as bs

/-- Case-insensitive occurrence test: does pattern `p` occur (as a
contiguous run, up to `ciEq`) anywhere in `s`? -/
def hasOccCI (p : List Char) : List Char → Bool
  | [] => ciStarts p []
  | c :: cs => ciStarts p (c :: cs) || hasOccCI p cs

/-- Plain (case-sensitive) starts-with test. -/
def startsL : List Char → List Char → Bool
  | [], _ => true
  | _ :: _, [] => false
  | a :: as, b :: bs => a == b && startsL as bs

/-- Plain (case-sensitive) substring test, modelling Python's
`needle in hay`. -/
def strContains (hay needle : List Char) : Bool :=
  match hay with
  | [] => needle.isEmpty
  | c :: cs => startsL needle (c :: cs) || strContains cs needle

/-- Lower-case a character list, modelling Python's `str.lower()` on the
ASCII text handled by the program. -/
def toLowerL (s : List Char) : List Char := s.map Char.toLower

/-- Left-to-right, non-overlapping, case-insensitive replacement of the
literal pattern `p` by `r`, modelling `re.sub(p, r, s, flags=re.I)` for a
literal pattern with no metacharacters; written with explicit fuel so
that the recursion is structural. -/
def replCIGo (p r : List Char) : Nat → List Char → List Char
  | _, [] => []
  | 0, s => s
  | fuel + 1, c :: cs =>
    if p ≠ [] ∧ ciStarts p (c :: cs) = true then
      r ++ replCIGo p r fuel (List.drop (p.length - 1) cs)
    else
      c :: replCIGo p r fuel cs

/-- The replacement itself; the fuel `s.length` is enough because each
step consumes at least one character. -/
def replCI (p r : List Char) (s : List Char) : List Char :=
  replCIGo p r s.length s

/-- Models Python's `html.unescape` restricted to the common named
entities that can occur in the product markup (`&amp;`, `&lt;`, `&gt;`,
`&quot;`); the standard library decodes the full HTML5 entity table, but
every theorem below about the rewriting step holds for arbitrary decoded
text, so the restriction is immaterial to the claims. -/
def htmlUnescape : List Char → List Char
  | '&' :: 'a' :: 'm' :: 'p' :: ';' :: rest => '&' :: htmlUnescape rest
  | '&' :: 'l' :: 't' :: ';' :: rest => '<' :: htmlUnescape rest
  | '&' :: 'g' :: 't' :: ';' :: rest => '>' :: htmlUnescape rest
  | '&' :: 'q' :: 'u' :: 'o' :: 't' :: ';' :: rest => '"' :: htmlUnescape rest
  | c :: rest => c :: htmlUnescape rest
  | [] => []

/-- The part of `s` before its last space, or `s` itself when it has no
space: models Python's `s.rsplit(' ', 1)[0]`. -/
def rsplitHead (cs : List Char) : List Char :=
  if ' ' ∈ cs then
    ((cs.reverse.dropWhile (fun c => ¬ (c = ' '))).drop 1).reverse
  else cs

/-! ### JSON values and Python-dict access

The remote APIs exchange JSON; `response.json()` yields Python values
(dicts, lists, strings, numbers, booleans, `None`).  Numbers are modelled
as exact rationals. -/

inductive Json where
  | null : Json
  | bool (b : Bool) : Json
  | num (q : Rat) : Json
  | str (s : String) : Json
  | arr (xs : List Json) : Json
  | obj (kvs : List (String × Json)) : Json

/-- First value bound to key `k` in an association list (Python dicts keep
one binding per key). -/
def jLookup (kvs : List (String × Json)) (k : String) : Option Json :=
  match kvs with
  | [] => none
  | (k2, v) :: rest => if k2 = k then some v else jLookup rest k

/-- `d.get(k)` on a dict: `none` when the key is absent.  On a non-dict,
Python would raise `AttributeError`; the responses handled by the program
are dicts at these access points, and the model returns `none` there. -/
def pyGet (j : Json) (k : String) : Option Json :=
  match j with
  | .obj kvs => jLookup kvs k
  | _ => none

/-- `d.get(k)` combined with an `is None` test: Python's `None` stands for
both an absent key and a JSON `null` value, so both collapse to `none`. -/
def pyGetNN (j : Json) (k : String) : Option Json :=
  match pyGet j k with
  | none => none
  | some .null => none
  | some v => some v

/-- Python truthiness of a JSON-shaped value. -/
def pyTruthy : Json → Bool
  | .null => false
  | .bool b => b
  | .num q => q ≠ 0
  | .str s => s ≠ ""
  | .arr xs => ¬ xs.isEmpty
  | .obj kvs => ¬ kvs.isEmpty

/-- `x or d` on an optional lookup result: Python's `or` yields `d`
whenever the left side is falsy (including `None`). -/
def pyOrElse (o : Option Json) (d : Json) : Json :=
  match o with
  | some v => if pyTruthy v then v else d
  | none => d

/-- `k in d` membership test on a dict. -/
def jHasKey (j : Json) (k : String) : Bool :=
  match j with
  | .obj kvs => ¬ (jLookup kvs k).isNone
  | _ => false

/-- `d[k] = v` on a dict: replaces the existing binding in place, or
appends a new one, as CPython insertion order does. -/
def dictSet (kvs : List (String × Json)) (k : String) (v : Json) :
    List (String × Json) :=
  match kvs with
  | [] => [(k, v)]
  | (k2, w) :: rest =>
    if k2 = k then (k2, v) :: rest else (k2, w) :: dictSet rest k v

/-! ### Python float formatting

`str(x)` on a Python float prints the shortest decimal that round-trips.
The float values flowing through `selected_price` are prices: short
terminating decimals, for which that output is the exact decimal
expansion — integer part, a dot, then the fractional digits (a single
`0` when the value is integral).  The model below produces exactly that
for nonnegative terminating rationals (up to 17 fractional digits, the
longest a double can need); scientific notation for huge magnitudes is
outside the range of the data and not modelled. -/

/-- Decimal digits of the proper fraction `n / d` (with `n < d`), most
significant first, stopping when the remainder is zero or the fuel runs
out. -/
def fracDigitsN : Nat → Nat → Nat → List Char
  | 0, _, _ => []
  | fuel + 1, n, d =>
    if n = 0 then []
    else Char.ofNat (48 + 10 * n / d) :: fracDigitsN fuel (10 * n % d) d

/-- `str(x)` for a terminating-decimal float value, written out from the
numerator and denominator of the reduced rational. -/
def pyFloatStr (x : Rat) : String :=
  let ip := x.num.natAbs / x.den
  let rem := x.num.natAbs % x.den
  let core := if rem = 0 then toString ip ++ ".0"
    else toString ip ++ "." ++ String.mk (fracDigitsN 17 rem x.den)
  if x.num < 0 then "-" ++ core else core

/-- `min(l)` for a nonempty list given as head and tail, as Python's
`min` computes it. -/
def pyMin (a : Rat) (l : List Rat) : Rat :=
  l.foldl (fun m x => if x < m then x else m) a

/-! ### The product record (`models.py`, `PimcoreProduct`)

Field names follow the source; the field called `part_prefix` in the
source is spelled `part_prefix_code` here.  Optional fields are `Option`
(`none` is Python's `None`); the pydantic defaults are applied by the
validation function `mkPimcoreProduct` further below. -/

structure PimcoreProduct where
  id : String
  sku : String
  upc : Option String
  web_price : Rat
  map_price : Rat
  retail_price : Rat
  cost : Option Rat
  brand_name : String
  model : Option String
  vendor_part_number : String
  description_short : Option String
  description_medium : Option String
  specifications_wysiwyg : Option String
  whats_in_box : Option String
  product_type_raw : Option String
  part_prefix_code : Option String
  product_webpage : Option String
  weight : Option Rat
  image_asset_id : Option String
deriving DecidableEq

/-- Truthiness of an optional string, as Python sees the field value
(`None` and `""` are falsy). -/
def optTruthy : Option String → Bool
  | none => false
  | some s => s ≠ ""

/-- `models.py` lines 32-37: web price if truthy and positive, otherwise
retail price if truthy, otherwise `0.0`. -/
def effective_web_price (p : PimcoreProduct) : Rat :=
  if p.web_price ≠ 0 ∧ 0 < p.web_price then p.web_price
  else if p.retail_price ≠ 0 then p.retail_price else 0

/-- `models.py` lines 39-46: the minimum of the positive prices among
effective web price, MAP and retail, as a decimal string; `"0.00"` when
none is positive. -/
def selected_price (p : PimcoreProduct) : String :=
  let eff := effective_web_price p
  let prices := [eff, p.map_price, p.retail_price].filter
    (fun x => decide (0 < x))
  match prices with
  | [] => "0.00"
  | q :: qs => pyFloatStr (pyMin q qs)

/-- `models.py` lines 48-74, `product_title`, split into named pieces.
Line 52: `model_val = self.model if self.model else self.vendor_part_number`. -/
def modelValOf (p : PimcoreProduct) : String :=
  match p.model with
  | some m => if m ≠ "" then m else p.vendor_part_number
  | none => p.vendor_part_number

/-- `models.py` line 53: `base_title = f"{self.brand_name} {model_val}"`. -/
def baseTitleOf (p : PimcoreProduct) : String :=
  p.brand_name ++ " " ++ modelValOf p

/-- `models.py` line 60: the space left for the description snippet,
`TITLE_MAX - len(base_title) - 4` (the `<= 0` test of the source becomes
`= 0` under the truncated natural subtraction, which agrees whenever the
base title is below the maximum). -/
def remainingOf (p : PimcoreProduct) : Nat :=
  255 - (baseTitleOf p).length - 4

/-- `models.py` lines 48-74: product title bounded by `TITLE_MAX = 255`
characters, built from the base title, with the short description
appended, truncated via `rsplit(' ', 1)[0]` plus an ellipsis when it
does not fit. -/
def product_title (p : PimcoreProduct) : String :=
  if 255 ≤ (baseTitleOf p).length then
    String.mk ((baseTitleOf p).data.take 255)
  else
    match p.description_short with
    | none => baseTitleOf p
    | some desc =>
      if desc = "" ∨ remainingOf p = 0 then baseTitleOf p
      else if desc.length ≤ remainingOf p then baseTitleOf p ++ " " ++ desc
      else
        if rsplitHead (desc.data.take (remainingOf p)) ≠ [] then
          baseTitleOf p ++ " " ++
            String.mk (rsplitHead (desc.data.take (remainingOf p))) ++ "..."
        else baseTitleOf p

/-- The window of the short description that truncation looks at:
`self.description_short[:remaining]`. -/
def descWindow (p : PimcoreProduct) : List Char :=
  match p.description_short with
  | some d => d.data.take (remainingOf p)
  | none => []

/-- `models.py` lines 78-87, the inner `clean`: unescape entities, then
rewrite `<h2>` to `<h3>` and `</h2>` to `</h3>`, case-insensitively. -/
def cleanHtml (text : Option String) : String :=
  match text with
  | none => ""
  | some t =>
    String.mk (replCI "</h2>".data "</h3>".data
      (replCI "<h2>".data "<h3>".data (htmlUnescape t.data)))

/-- `models.py` lines 76-95: the description section (labelled with a
literal `<h2>Description</h2>`) followed by the tech-specs section
(labelled `<h2>Tech Specs</h2>`), each present only when its source text
is truthy, with the section bodies run through `cleanHtml`. -/
def get_sanitized_html (p : PimcoreProduct) : String :=
  (if optTruthy p.description_medium then
    "<h2>Description</h2>" ++ cleanHtml p.description_medium
  else "") ++
  (if optTruthy p.specifications_wysiwyg then
    "<h2>Tech Specs</h2>" ++ cleanHtml p.specifications_wysiwyg
  else "")

/-! ### The source reader (`pimcore_client.py`, `fetch_products`)

The HTTP exchange is abstracted into a `FetchOutcome`; everything after
`res = self.session.post(...)` is modelled.  pydantic validation of
`PimcoreProduct(**node_data)` is modelled by `mkPimcoreProduct`: a
required field must be present as a string; a float field takes a JSON
number and defaults to `0.0` when absent (a JSON `null` fails, since the
field is not `Optional`); an `Optional` field accepts `null`/absence and
otherwise requires the matching type.  (pydantic's numeric/string
coercions, which the fetched data never relies on, are not modelled.) -/

/-- Required `str` field: present with a string value, else a
`ValidationError`. -/
def vReqStr (kvs : List (String × Json)) (k : String) : Option String :=
  match jLookup kvs k with
  | some (.str s) => some s
  | _ => none

/-- `float` field with default `0.0`. -/
def vFltD (kvs : List (String × Json)) (k : String) : Option Rat :=
  match jLookup kvs k with
  | none => some 0
  | some (.num q) => some q
  | some _ => none

/-- `Optional[float]` field with default `None`. -/
def vOptFlt (kvs : List (String × Json)) (k : String) : Option (Option Rat) :=
  match jLookup kvs k with
  | none => some none
  | some .null => some none
  | some (.num q) => some (some q)
  | some _ => none

/-- `Optional[str]` field with default `None`. -/
def vOptStrNone (kvs : List (String × Json)) (k : String) :
    Option (Option String) :=
  match jLookup kvs k with
  | none => some none
  | some .null => some none
  | some (.str s) => some (some s)
  | some _ => none

/-- `Optional[str]` field with default `""`. -/
def vOptStrEmpty (kvs : List (String × Json)) (k : String) :
    Option (Option String) :=
  match jLookup kvs k with
  | none => some (some "")
  | some .null => some none
  | some (.str s) => some (some s)
  | some _ => none

/-- pydantic construction of `PimcoreProduct` from keyword arguments
(`models.py` lines 11-30, populated by alias); `none` is a
`ValidationError`. -/
def mkPimcoreProduct (kvs : List (String × Json)) : Option PimcoreProduct :=
  if (vReqStr kvs "id").isSome ∧ (vReqStr kvs "sku").isSome ∧
      (vOptStrNone kvs "upc").isSome ∧ (vFltD kvs "WebPrice").isSome ∧
      (vFltD kvs "MAP").isSome ∧ (vFltD kvs "Retail").isSome ∧
      (vOptFlt kvs "Cost").isSome ∧ (vReqStr kvs "BrandName").isSome ∧
      (vOptStrNone kvs "Model").isSome ∧
      (vReqStr kvs "VendorPartNumber").isSome ∧
      (vOptStrEmpty kvs "Description_Short").isSome ∧
      (vOptStrEmpty kvs "Description_Medium").isSome ∧
      (vOptStrEmpty kvs "Specifications_WYSIWYG").isSome ∧
      (vOptStrEmpty kvs "WhatsInBox").isSome ∧
      (vOptStrNone kvs "ProductType").isSome ∧
      (vOptStrNone kvs "PartPrefix").isSome ∧
      (vOptStrNone kvs "ProductWebpage").isSome ∧
      (vOptFlt kvs "Weight").isSome ∧
      (vOptStrNone kvs "image_asset_id").isSome then
    some ⟨(vReqStr kvs "id").getD "", (vReqStr kvs "sku").getD "",
      (vOptStrNone kvs "upc").getD none, (vFltD kvs "WebPrice").getD 0,
      (vFltD kvs "MAP").getD 0, (vFltD kvs "Retail").getD 0,
      (vOptFlt kvs "Cost").getD none, (vReqStr kvs "BrandName").getD "",
      (vOptStrNone kvs "Model").getD none,
      (vReqStr kvs "VendorPartNumber").getD "",
      (vOptStrEmpty kvs "Description_Short").getD none,
      (vOptStrEmpty kvs "Description_Medium").getD none,
      (vOptStrEmpty kvs "Specifications_WYSIWYG").getD none,
      (vOptStrEmpty kvs "WhatsInBox").getD none,
      (vOptStrNone kvs "ProductType").getD none,
      (vOptStrNone kvs "PartPrefix").getD none,
      (vOptStrNone kvs "ProductWebpage").getD none,
      (vOptFlt kvs "Weight").getD none,
      (vOptStrNone kvs "image_asset_id").getD none⟩
  else none

/-- `pimcore_client.py` lines 413-420: replace an absent or `null` value
of key `k` by the empty string. -/
def convertNullEmpty (kvs : List (String × Json)) (k : String) :
    List (String × Json) :=
  match jLookup kvs k with
  | none => dictSet kvs k (.str "")
  | some .null => dictSet kvs k (.str "")
  | some _ => kvs

/-- `pimcore_client.py` lines 409-432, one iteration of the node loop,
split into named pieces.  Any exception in the body (missing `"node"`,
wrong shapes, `ValidationError`) is caught by the `except ... continue`
arms, i.e. yields `none`.  Lines 413-420: the four null-to-empty
conversions. -/
def convertedNode (nkvs : List (String × Json)) : List (String × Json) :=
  convertNullEmpty (convertNullEmpty (convertNullEmpty
    (convertNullEmpty nkvs "Description_Short") "Description_Medium")
    "Specifications_WYSIWYG") "WhatsInBox"

/-- Lines 421-425: the `ImagePrimary` handling — when the key holds a
truthy dict its `id` becomes `image_asset_id`, a falsy/absent value sets
`image_asset_id` to `None`, and a truthy non-dict would make
`.get("id")` raise (so the node is skipped). -/
def nodeKvsOf (nkvs : List (String × Json)) : Option (List (String × Json)) :=
  match jLookup (convertedNode nkvs) "ImagePrimary" with
  | some v =>
    if pyTruthy v then
      match v with
      | .obj vkvs =>
        some (dictSet (convertedNode nkvs) "image_asset_id"
          ((jLookup vkvs "id").getD .null))
      | _ => none
    else some (dictSet (convertedNode nkvs) "image_asset_id" .null)
  | none => some (dictSet (convertedNode nkvs) "image_asset_id" .null)

def nodeToProduct (item : Json) : Option PimcoreProduct :=
  match item with
  | .obj ikvs =>
    match jLookup ikvs "node" with
    | some (.obj nkvs) => (nodeKvsOf nkvs).bind mkPimcoreProduct
    | _ => none
  | _ => none

/-- `pimcore_client.py` lines 409-434, the node loop itself: each node is
tried in order; a failing node is skipped and the loop continues. -/
def collectProducts : List Json → List PimcoreProduct
  | [] => []
  | item :: rest =>
    match nodeToProduct item with
    | some p => p :: collectProducts rest
    | none => collectProducts rest

/-- `data.get("data", {}).get("getProdM06Listing", {}).get("edges", [])`
(lines 397-398): `none` stands for a shape for which Python would raise
(a non-dict intermediate value, or non-list edges), which the enclosing
`except Exception` arm turns into an empty result. -/
def nodesOf (body : Json) : Option (List Json) :=
  match body with
  | .obj kvs =>
    match (jLookup kvs "data").getD (.obj []) with
    | .obj dkvs =>
      match (jLookup dkvs "getProdM06Listing").getD (.obj []) with
      | .obj lkvs =>
        match (jLookup lkvs "edges").getD (.arr []) with
        | .arr xs => some xs
        | _ => none
      | _ => none
    | _ => none
  | _ => none

/-- Outcome of the HTTP POST in `fetch_products`: a raised
`requests.RequestException`, a body that is not valid JSON
(`ValueError` from `res.json()`), or a parsed JSON body. -/
inductive FetchOutcome where
  | requestError (msg : String) : FetchOutcome
  | badJson : FetchOutcome
  | ok (body : Json) : FetchOutcome

/-- `pimcore_client.py` lines 330-440, `fetch_products` after the POST:
empty list on a request error, malformed JSON, a top-level `"errors"`
key, or an unexpected response shape; otherwise the per-node loop.
(The `prefix` and `limit` arguments only shape the query text and are
absorbed into the abstract outcome.) -/
def fetch_products (resp : FetchOutcome) : List PimcoreProduct :=
  match resp with
  | .requestError _ => []
  | .badJson => []
  | .ok body =>
    if jHasKey body "errors" then []
    else
      match nodesOf body with
      | none => []
      | some nodes => collectProducts nodes

/-! ### The storefront client (`shopify_client.py`)

`execute_graphql` is modelled over an oracle `o : Nat → GOutcome` giving
the outcome of the HTTP POST of each attempt (index 0, 1, 2).  The trace
records the returned payload, the sleeps performed, the number of
attempts consumed, and the attempts on which the 401 diagnostic branch
fired. -/

/-- Outcome of one POST attempt: a raised `requests.RequestException`
(with the HTTP status code when the exception carries a response), or a
parsed JSON body. -/
inductive GOutcome where
  | transportErr (status : Option Nat) (msg : String) : GOutcome
  | response (body : Json) : GOutcome

/-- `shopify_client.py` line 53: some entry of the top-level `errors`
list has `extensions.code == "THROTTLED"`. -/
def isThrottled (body : Json) : Bool :=
  let errs := match pyGet body "errors" with
    | some (.arr xs) => xs
    | _ => []
  errs.any fun e =>
    match pyGet (pyOrElse (pyGet e "extensions") (.obj [])) "code" with
    | some (.str s) => s == "THROTTLED"
    | _ => false

/-- The payload returned after the loop exhausts all attempts
(line 77). -/
def maxRetriesJson : Json :=
  .obj [("errors", .arr [.obj [("message", .str "Max retries exceeded")]])]

/-- The payload returned when the last attempt raises (line 75). -/
def requestFailedJson (msg : String) : Json :=
  .obj [("errors", .arr [.obj [("message", .str ("Request failed: " ++ msg))]])]

/-- Execution trace of `execute_graphql`. -/
structure ExecTrace where
  result : Json
  waits : List Nat
  attempts : Nat
  diag401 : List Nat

/-- `shopify_client.py` lines 44-77, the `for attempt in range(3)` loop
over the remaining attempt indices: a throttled response sleeps
`(attempt + 1) * 5` and continues; a non-throttled response returns; a
transport error on the last attempt (index 2) returns the failure
payload, otherwise sleeps `(attempt + 1) * 2` and continues; a 401
status fires the diagnostic logging branch. -/
def execLoop (o : Nat → GOutcome) : List Nat → ExecTrace
  | [] => ⟨maxRetriesJson, [], 0, []⟩
  | i :: rest =>
    match o i with
    | .response body =>
      if isThrottled body then
        let t := execLoop o rest
        ⟨t.result, (i + 1) * 5 :: t.waits, t.attempts + 1, t.diag401⟩
      else ⟨body, [], 1, []⟩
    | .transportErr status msg =>
      let d : List Nat := if status = some 401 then [i] else []
      if i = 2 then ⟨requestFailedJson msg, [], 1, d⟩
      else
        let t := execLoop o rest
        ⟨t.result, (i + 1) * 2 :: t.waits, t.attempts + 1, d ++ t.diag401⟩

/-- `execute_graphql`: the loop runs over attempts 0, 1, 2. -/
def execute_graphql (o : Nat → GOutcome) : ExecTrace := execLoop o [0, 1, 2]

/-- Attempt outcome classifiers used to state the retry claims. -/
def isThrottledOutcome : GOutcome → Bool
  | .response body => isThrottled body
  | .transportErr _ _ => false

def isTransportOutcome : GOutcome → Bool
  | .transportErr _ _ => true
  | .response _ => false

/-- Did the attempt raise with an HTTP 401 response (the condition under
which `execute_graphql` runs its extra diagnostic logging branch)? -/
def is401Outcome : GOutcome → Bool
  | .transportErr status _ => status = some 401
  | .response _ => false

def msgOfOutcome : GOutcome → String
  | .transportErr _ m => m
  | .response _ => ""

/-- The backoff the loop sleeps after attempt `i` when it retries:
`(i + 1) * 2` seconds after a transport failure, `(i + 1) * 5` seconds
after a throttled response. -/
def backoffFor (o : Nat → GOutcome) (i : Nat) : Nat :=
  match o i with
  | .transportErr _ _ => (i + 1) * 2
  | .response _ => (i + 1) * 5

/-! `upsert_product` (`shopify_client.py` lines 79-150).  The three
GraphQL calls it can make are abstracted by the responses the network
would give them: `createRes` for `productCreate`, `findRes` for
`productByHandle`, `updRes` for `productUpdate`.  The list of issued
calls is returned alongside the result so that the claim about
re-issuing the payload as an update is expressible. -/

/-- A GraphQL call issued by `upsert_product`. -/
inductive CallRec where
  | create (input : Json) : CallRec
  | findByHandle (handle : Json) : CallRec
  | update (input : Json) : CallRec

/-- Lines 87-100: the checks before the user-error inspection — a
top-level `"errors"` key, a missing/null `data`, or a missing/null
`productCreate` each end the call with `None`. -/
def getProductCreate (res : Json) : Option Json :=
  if jHasKey res "errors" then none
  else
    match pyGetNN res "data" with
    | none => none
    | some d => pyGetNN d "productCreate"

/-- `err.get("message", "")` for an entry of `userErrors`. -/
def messageOf (e : Json) : String :=
  match pyGet e "message" with
  | some (.str s) => s
  | _ => ""

/-- Line 102: `product_create.get("userErrors", [])`. -/
def userErrorList (pc : Json) : List Json :=
  match pyGet pc "userErrors" with
  | some (.arr xs) => xs
  | _ => []

/-- Line 105: some user error message contains `"taken"` after
lower-casing. -/
def hasTaken (pc : Json) : Bool :=
  (userErrorList pc).any fun e =>
    strContains (toLowerL (messageOf e).data) "taken".data

/-- Lines 113-117: extract the id of the product found by handle,
treating falsy intermediate values as `{}` and a falsy id as not
found. -/
def foundGid (findRes : Json) : Option Json :=
  let fd := pyOrElse (pyGet findRes "data") (.obj [])
  let pbh := pyOrElse (pyGet fd "productByHandle") (.obj [])
  match pyGet pbh "id" with
  | some g => if pyTruthy g then some g else none
  | none => none

/-- Lines 136-150: the tail of `upsert_product` that inspects the
`productCreate` payload itself — `None` without a truthy product id,
the id otherwise. -/
def createOutcome (pc : Json) : Option Json :=
  match pyGetNN pc "product" with
  | none => none
  | some product =>
    match pyGet product "id" with
    | some pid => if pyTruthy pid then some pid else none
    | none => none

/-- `shopify_client.py` lines 79-150, `upsert_product`: result and the
calls issued. -/
def upsert_product (createRes findRes updRes : Json)
    (pd : List (String × Json)) : Option Json × List CallRec :=
  let calls0 : List CallRec := [.create (.obj pd)]
  match getProductCreate createRes with
  | none => (none, calls0)
  | some pc =>
    if hasTaken pc then
      let calls1 := calls0 ++ [.findByHandle ((jLookup pd "handle").getD .null)]
      if jHasKey findRes "errors" then (none, calls1)
      else
        match foundGid findRes with
        | some g =>
          let calls2 := calls1 ++ [.update (.obj (dictSet pd "id" g))]
          if jHasKey updRes "errors" then (none, calls2)
          else (some g, calls2)
        | none => (createOutcome pc, calls1)
    else (createOutcome pc, calls0)

/-! ### The export engine (`sync_engine.py`) and entry point (`0_main.py`) -/

/-- The config dict assembled in `0_main.py` lines 187-192. -/
structure SyncConfig where
  maxProducts : Nat
  dryRun : Bool
  delayBetweenProducts : Nat
  delayAfterImage : Nat
deriving DecidableEq

/-- Observable outcome of `SyncEngine.run`: whether the TSV file was
opened and written, and how many product rows it received. -/
structure RunOutcome where
  fileWritten : Bool
  rowsWritten : Nat
deriving DecidableEq

/-- `sync_engine.py` lines 20-159, `SyncEngine.run`, with the fetched
product list abstracted as a parameter (the source obtains it from
`self.pimcore.fetch_products(part_prefix, self.config['MAX_PRODUCTS'])`).
When the list is empty the method logs and returns without creating the
file; otherwise it opens the TSV file and writes the header plus one row
per product.  The method body never reads the dry-run entry of the
config: `cfg` is accepted (mirroring `self.config`) but only its
`maxProducts` entry is ever consulted by the source, in the fetch call
that is abstracted away here. -/
def SyncEngine_run (fetched : List PimcoreProduct) (_cfg : SyncConfig) :
    RunOutcome :=
  if fetched.isEmpty then { fileWritten := false, rowsWritten := 0 }
  else { fileWritten := true, rowsWritten := fetched.length }

/-- `sync_engine.py` line 15: `def __init__(self, pimcore, config)` binds
two positional parameters besides `self`. -/
def syncEngineInitParamCount : Nat := 2

/-- `0_main.py` line 194: `SyncEngine(pim_client, shop_client, config)`
passes three positional arguments. -/
def mainSyncEngineArgCount : Nat := 3

/-- Phases of the normal sync path of `main` after client setup. -/
inductive SyncPhase where
  | engineConstruction : SyncPhase
  | recordFetch : SyncPhase
  | recordTransform : SyncPhase
  | recordEmit : SyncPhase
deriving DecidableEq

/-- Python call semantics for `SyncEngine(...)`: binding the wrong number
of positional arguments raises `TypeError` before `__init__`'s body
runs. -/
def pyConstructEngine : Except String Unit :=
  if mainSyncEngineArgCount = syncEngineInitParamCount then .ok ()
  else .error "TypeError: __init__ takes 3 positional arguments but 4 were given"

/-- `0_main.py` lines 194-195 in normal sync mode (a prefix supplied, no
diagnostic flag): construct the engine, then — only if construction
succeeded — `engine.run(...)`, which fetches, transforms and emits.  The
phase list records how far execution got. -/
def mainNormalSync : Except String Unit × List SyncPhase :=
  match pyConstructEngine with
  | .error e => (.error e, [SyncPhase.engineConstruction])
  | .ok _ => (.ok (), [SyncPhase.engineConstruction, .recordFetch,
      .recordTransform, .recordEmit])

/-! ### Concrete fixtures for witnesses and counterexamples -/

/-- A minimal valid product record, as the fetch mapping would build it
from a node carrying only the required fields. -/
def sampleProduct : PimcoreProduct :=
  ⟨"1", "SKU1", none, 0, 0, 0, none, "Brand", none, "VPN", some "",
    some "", some "", some "", none, none, none, none, none⟩

/-- The price scenario of the specification: web 0, MAP 25, retail 30. -/
def priceScenarioProduct : PimcoreProduct :=
  { sampleProduct with web_price := 0, map_price := 25, retail_price := 30 }

/-- A record whose medium description is nonempty (used against the
no-`<h2>` claim). -/
def htmlScenarioProduct : PimcoreProduct :=
  { sampleProduct with description_medium := some "x" }

/-- A record whose short description is a single 300-character word. -/
def longWordProduct : PimcoreProduct :=
  { sampleProduct with
    description_short := some (String.mk (List.replicate 300 'a')) }

/-- A record whose short description starts with two short words and
continues with a 300-character word. -/
def wordBoundaryProduct : PimcoreProduct :=
  { sampleProduct with
    description_short := some ("ab cd " ++ String.mk (List.replicate 300 'a')) }

/-- A record whose brand alone exceeds the title maximum. -/
def hugeBrandProduct : PimcoreProduct :=
  { sampleProduct with brand_name := String.mk (List.replicate 300 'b') }

/-- A `productCreate` response reporting a handle-taken user error. -/
def crTaken : Json :=
  .obj [("data", .obj [("productCreate", .obj [("userErrors",
    .arr [.obj [("message", .str "Handle has already been taken")]])])])]

/-- The `productCreate` payload inside `crTaken`. -/
def pcTaken : Json :=
  .obj [("userErrors",
    .arr [.obj [("message", .str "Handle has already been taken")]])]

/-- A `productByHandle` response that finds the existing product. -/
def frFound : Json :=
  .obj [("data", .obj [("productByHandle", .obj [("id", .str "gid1")])])]

/-- A `productUpdate` response carrying a top-level error payload. -/
def urFail : Json :=
  .obj [("errors", .arr [.obj [("message", .str "boom")]])]

/-- A `productUpdate` response with no errors. -/
def urOk : Json :=
  .obj [("data", .obj [("productUpdate", .obj [("userErrors", .arr [])])])]

/-- The product payload passed to the upsert. -/
def pdSample : List (String × Json) := [("handle", .str "widget")]

/-- A response body whose errors list carries a THROTTLED code. -/
def throttledBody : Json :=
  .obj [("errors", .arr [.obj [("extensions",
    .obj [("code", .str "THROTTLED")])]])]

/-- An oracle that reports a throttled response on every attempt. -/
def oracleAllThrottled : Nat → GOutcome := fun _ => .response throttledBody

/-- An oracle that raises a 401 transport error on every attempt. -/
def oracleAll401 : Nat → GOutcome :=
  fun _ => .transportErr (some 401) "401 Client Error"

/-- A fetched edge whose node carries the required fields only. -/
def goodNode1 : Json :=
  .obj [("node", .obj [("id", .str "1"), ("sku", .str "S1"),
    ("BrandName", .str "B"), ("VendorPartNumber", .str "V1")])]

/-- A second valid edge. -/
def goodNode2 : Json :=
  .obj [("node", .obj [("id", .str "2"), ("sku", .str "S2"),
    ("BrandName", .str "B"), ("VendorPartNumber", .str "V2")])]

/-- An edge whose node is missing the required `BrandName`, so pydantic
validation fails and the loop skips it. -/
def badNode : Json :=
  .obj [("node", .obj [("id", .str "3"), ("sku", .str "S3"),
    ("VendorPartNumber", .str "V3")])]

/-- An edge whose node carries the required fields plus explicit `null`s
for `Model` and `PartPrefix`. -/
def nullOptionalsNode : Json :=
  .obj [("node", .obj [("id", .str "4"), ("sku", .str "S4"),
    ("BrandName", .str "B"), ("VendorPartNumber", .str "V4"),
    ("Model", .null), ("PartPrefix", .null)])]

/-- A listing body wrapping the given edges. -/
def mkListingBody (edges : List Json) : Json :=
  .obj [("data", .obj [("getProdM06Listing", .obj [("edges", .arr edges)])])]

/-! ### Proof-support definitions for the replacement lemmas -/

/-- Comparing pattern `p` against the text `tr`, is there a
case-insensitive mismatch at some index that lies inside `tr`?  When so,
`p` cannot match at the head of `tr ++ x` for any continuation `x`. -/
def mismatchIn : List Char → List Char → Bool
  | [], _ => false
  | _ :: _, [] => false
  | a :: as, b :: bs => !(ciEq a b) || mismatchIn as bs

/-- Does every nonempty suffix of `r` exhibit an internal mismatch with
`p`?  When so, no occurrence of `p` can start inside an inserted copy
of `r`. -/
def blocksAux (p : List Char) : List Char → Bool
  | [] => true
  | b :: bs => mismatchIn p (b :: bs) && blocksAux p bs

/-! ### General lemmas -/

theorem ciStarts_nil_right (p : List Char) (h : ciStarts p [] = true) :
    p = [] := by
  cases p with
  | nil => rfl
  | cons a as => simp [ciStarts] at h

theorem mismatchIn_blocks (tr : List Char) :
    ∀ p x, mismatchIn p tr = true → ciStarts p (tr ++ x) = false := by
  induction tr with
  | nil =>
    intro p x h
    cases p with
    | nil => simp [mismatchIn] at h
    | cons a as => simp [mismatchIn] at h
  | cons b bs ih =>
    intro p x h
    cases p with
    | nil => simp [mismatchIn] at h
    | cons a as =>
      simp only [mismatchIn, Bool.or_eq_true, Bool.not_eq_true'] at h
      simp only [List.cons_append, ciStarts, Bool.and_eq_false_iff]
      rcases h with h | h
      · exact Or.inl h
      · exact Or.inr (ih as x h)

theorem blocksAux_skip (r : List Char) :
    ∀ p x, blocksAux p r = true → hasOccCI p (r ++ x) = hasOccCI p x := by
  induction r with
  | nil => intro p x _; rfl
  | cons b bs ih =>
    intro p x h
    simp only [blocksAux, Bool.and_eq_true] at h
    have hstep : hasOccCI p ((b :: bs) ++ x) =
        (ciStarts p ((b :: bs) ++ x) || hasOccCI p (bs ++ x)) := rfl
    rw [hstep, mismatchIn_blocks (b :: bs) p x h.1, Bool.false_or]
    exact ih p x h.2

theorem replCIGo_fuel_irrel (p r : List Char) :
    ∀ f1 f2 s, s.length ≤ f1 → s.length ≤ f2 →
      replCIGo p r f1 s = replCIGo p r f2 s := by
  intro f1
  induction f1 with
  | zero =>
    intro f2 s hs1 _
    have : s = [] := List.length_eq_zero.mp (Nat.le_zero.mp hs1)
    subst this
    cases f2 <;> rfl
  | succ n ih =>
    intro f2 s hs1 hs2
    cases s with
    | nil => cases f2 <;> rfl
    | cons c cs =>
      cases f2 with
      | zero => simp at hs2
      | succ m =>
        simp only [List.length_cons] at hs1 hs2
        rw [replCIGo, replCIGo]
        by_cases hm : p ≠ [] ∧ ciStarts p (c :: cs) = true
        · rw [if_pos hm, if_pos hm]
          have hlen := List.length_drop (p.length - 1) cs
          rw [ih m (List.drop (p.length - 1) cs) (by omega) (by omega)]
        · rw [if_neg hm, if_neg hm]
          rw [ih m cs (by omega) (by omega)]

theorem replCI_nil (p r : List Char) : replCI p r [] = [] := rfl

theorem replCI_cons (p r : List Char) (c : Char) (cs : List Char) :
    replCI p r (c :: cs) =
      if p ≠ [] ∧ ciStarts p (c :: cs) = true then
        r ++ replCI p r (List.drop (p.length - 1) cs)
      else c :: replCI p r cs := by
  have hstep : replCI p r (c :: cs) =
      (if p ≠ [] ∧ ciStarts p (c :: cs) = true then
        r ++ replCIGo p r cs.length (List.drop (p.length - 1) cs)
      else c :: replCIGo p r cs.length cs) := rfl
  rw [hstep]
  by_cases hm : p ≠ [] ∧ ciStarts p (c :: cs) = true
  · rw [if_pos hm, if_pos hm, replCI]
    have hlen := List.length_drop (p.length - 1) cs
    rw [replCIGo_fuel_irrel p r cs.length (List.drop (p.length - 1) cs).length
      (List.drop (p.length - 1) cs) (by omega) (by omega)]
  · rw [if_neg hm, if_neg hm, replCI]

theorem ciStarts_shield (p r r2 : List Char) (hr : r = '<' :: r2) :
    ∀ s t, (∀ a ∈ t, ciEq a '<' = false) →
      ciStarts t (replCI p r s) = true → ciStarts t s = true := by
  intro s
  induction s with
  | nil =>
    intro t _ h
    rw [replCI_nil] at h
    rw [ciStarts_nil_right t h]
    rfl
  | cons c cs ih =>
    intro t ht h
    rw [replCI_cons] at h
    by_cases hm : p ≠ [] ∧ ciStarts p (c :: cs) = true
    · rw [if_pos hm, hr] at h
      cases t with
      | nil => rfl
      | cons a t2 =>
        simp only [List.cons_append, ciStarts, Bool.and_eq_true] at h
        have := ht a (List.mem_cons_self a t2)
        rw [this] at h
        exact absurd h.1 Bool.false_ne_true
    · rw [if_neg hm] at h
      cases t with
      | nil => rfl
      | cons a t2 =>
        simp only [ciStarts, Bool.and_eq_true] at h ⊢
        refine ⟨h.1, ?_⟩
        exact ih t2 (fun b hb => ht b (List.mem_cons_of_mem a hb)) h.2

theorem hasOccCI_drop (q : List Char) :
    ∀ l n, hasOccCI q l = false → hasOccCI q (l.drop n) = false := by
  intro l
  induction l with
  | nil => intro n h; simpa [List.drop_nil] using h
  | cons c cs ih =>
    intro n h
    cases n with
    | zero => exact h
    | succ n =>
      simp only [hasOccCI, Bool.or_eq_false_iff] at h
      exact ih n h.2

theorem replCI_removes (p r r2 : List Char) (hp : p ≠ [])
    (hb : blocksAux p r = true) (hr : r = '<' :: r2)
    (ht : ∀ a ∈ p.tail, ciEq a '<' = false) :
    ∀ s, hasOccCI p (replCI p r s) = false := by
  have H : ∀ n, ∀ s : List Char, s.length ≤ n →
      hasOccCI p (replCI p r s) = false := by
    intro n
    induction n with
    | zero =>
      intro s hs
      have : s = [] := List.length_eq_zero.mp (Nat.le_zero.mp hs)
      subst this
      rw [replCI_nil]
      cases p with
      | nil => exact absurd rfl hp
      | cons a as => rfl
    | succ n ih =>
      intro s hs
      cases s with
      | nil =>
        rw [replCI_nil]
        cases p with
        | nil => exact absurd rfl hp
        | cons a as => rfl
      | cons c cs =>
        rw [replCI_cons]
        by_cases hm : p ≠ [] ∧ ciStarts p (c :: cs) = true
        · rw [if_pos hm, blocksAux_skip r p _ hb]
          refine ih _ ?_
          have := List.length_drop (p.length - 1) cs
          simp only [List.length_cons] at hs
          omega
        · rw [if_neg hm]
          have htail : hasOccCI p (replCI p r cs) = false := by
            refine ih cs ?_
            simp only [List.length_cons] at hs
            omega
          have hstep : hasOccCI p (c :: replCI p r cs) =
              (ciStarts p (c :: replCI p r cs) || hasOccCI p (replCI p r cs)) :=
            rfl
          rw [hstep, htail, Bool.or_false]
          by_contra hcontra
          have hhead : ciStarts p (c :: replCI p r cs) = true := by
            cases hx : ciStarts p (c :: replCI p r cs) with
            | true => rfl
            | false => exact absurd hx hcontra
          cases p with
          | nil => exact absurd rfl hp
          | cons a as =>
            simp only [ciStarts, Bool.and_eq_true] at hhead
            have has : ciStarts as cs = true :=
              ciStarts_shield (a :: as) r r2 hr cs as ht hhead.2
            refine hm ⟨hp, ?_⟩
            simp only [ciStarts, Bool.and_eq_true]
            exact ⟨hhead.1, has⟩
  exact fun s => H s.length s (Nat.le_refl _)

theorem replCI_preserves (p r r2 q : List Char) (hq : q ≠ [])
    (hb : blocksAux q r = true) (hr : r = '<' :: r2)
    (ht : ∀ a ∈ q.tail, ciEq a '<' = false) :
    ∀ s, hasOccCI q s = false → hasOccCI q (replCI p r s) = false := by
  have H : ∀ n, ∀ s : List Char, s.length ≤ n → hasOccCI q s = false →
      hasOccCI q (replCI p r s) = false := by
    intro n
    induction n with
    | zero =>
      intro s hs h
      have : s = [] := List.length_eq_zero.mp (Nat.le_zero.mp hs)
      subst this
      rw [replCI_nil]
      exact h
    | succ n ih =>
      intro s hs h
      cases s with
      | nil => rw [replCI_nil]; exact h
      | cons c cs =>
        have hsplit : hasOccCI q (c :: cs) =
            (ciStarts q (c :: cs) || hasOccCI q cs) := rfl
        rw [hsplit, Bool.or_eq_false_iff] at h
        rw [replCI_cons]
        by_cases hm : p ≠ [] ∧ ciStarts p (c :: cs) = true
        · rw [if_pos hm, blocksAux_skip r q _ hb]
          refine ih _ ?_ ?_
          · have := List.length_drop (p.length - 1) cs
            simp only [List.length_cons] at hs
            omega
          · exact hasOccCI_drop q cs (p.length - 1) h.2
        · rw [if_neg hm]
          have htail : hasOccCI q (replCI p r cs) = false := by
            refine ih cs ?_ h.2
            simp only [List.length_cons] at hs
            omega
          have hstep : hasOccCI q (c :: replCI p r cs) =
              (ciStarts q (c :: replCI p r cs) || hasOccCI q (replCI p r cs)) :=
            rfl
          rw [hstep, htail, Bool.or_false]
          by_contra hcontra
          have hhead : ciStarts q (c :: replCI p r cs) = true := by
            cases hx : ciStarts q (c :: replCI p r cs) with
            | true => rfl
            | false => exact absurd hx hcontra
          cases q with
          | nil => exact absurd rfl hq
          | cons a as =>
            simp only [ciStarts, Bool.and_eq_true] at hhead
            have has : ciStarts as cs = true :=
              ciStarts_shield p r r2 hr cs as ht hhead.2
            have : ciStarts (a :: as) (c :: cs) = true := by
              simp only [ciStarts, Bool.and_eq_true]
              exact ⟨hhead.1, has⟩
            rw [this] at h
            simp at h
  exact fun s => H s.length s (Nat.le_refl _)

theorem cleanHtml_no_h2 (t : Option String) :
    hasOccCI "<h2>".data (cleanHtml t).data = false ∧
    hasOccCI "</h2>".data (cleanHtml t).data = false := by
  cases t with
  | none => exact ⟨by decide, by decide⟩
  | some s =>
    have hinner : hasOccCI "<h2>".data
        (replCI "<h2>".data "<h3>".data (htmlUnescape s.data)) = false :=
      replCI_removes "<h2>".data "<h3>".data "h3>".data (by decide)
        (by decide) rfl (by decide) (htmlUnescape s.data)
    constructor
    · exact replCI_preserves "</h2>".data "</h3>".data "/h3>".data
        "<h2>".data (by decide) (by decide) rfl (by decide) _ hinner
    · exact replCI_removes "</h2>".data "</h3>".data "/h3>".data (by decide)
        (by decide) rfl (by decide) _

theorem pyMin_mem (l : List Rat) : ∀ a, pyMin a l ∈ a :: l := by
  induction l with
  | nil => intro a; simp [pyMin]
  | cons c cs ih =>
    intro a
    have hstep : pyMin a (c :: cs) = pyMin (if c < a then c else a) cs := rfl
    rw [hstep]
    have := ih (if c < a then c else a)
    rcases List.mem_cons.mp this with h | h
    · rw [h]
      by_cases hc : c < a
      · simp [hc]
      · simp [hc]
    · exact List.mem_cons_of_mem a (List.mem_cons_of_mem c h)

theorem pyMin_le (l : List Rat) : ∀ a, ∀ x ∈ a :: l, pyMin a l ≤ x := by
  induction l with
  | nil =>
    intro a x hx
    rcases List.mem_cons.mp hx with h | h
    · rw [h]; exact le_refl _
    · simp at h
  | cons c cs ih =>
    intro a x hx
    have hstep : pyMin a (c :: cs) = pyMin (if c < a then c else a) cs := rfl
    rw [hstep]
    have hba : (if c < a then c else a) ≤ a := by
      by_cases hc : c < a
      · rw [if_pos hc]; exact le_of_lt hc
      · rw [if_neg hc]
    have hbc : (if c < a then c else a) ≤ c := by
      by_cases hc : c < a
      · rw [if_pos hc]
      · rw [if_neg hc]; exact le_of_not_lt hc
    have hmin_le_b : pyMin (if c < a then c else a) cs ≤ (if c < a then c else a) :=
      ih (if c < a then c else a) _ (List.mem_cons_self _ _)
    rcases List.mem_cons.mp hx with h | h
    · rw [h]; exact le_trans hmin_le_b hba
    · rcases List.mem_cons.mp h with h2 | h2
      · rw [h2]; exact le_trans hmin_le_b hbc
      · exact ih (if c < a then c else a) x (List.mem_cons_of_mem _ h2)

theorem dropWhile_space_decomp :
    ∀ r : List Char, ' ' ∈ r →
      ∃ t d2, r = t ++ ' ' :: d2 ∧ (∀ c ∈ t, ¬ (c = ' ')) ∧
        r.dropWhile (fun c => ¬ (c = ' ')) = ' ' :: d2 := by
  intro r
  induction r with
  | nil => intro h; simp at h
  | cons c rest ih =>
    intro h
    by_cases hc : c = ' '
    · subst hc
      refine ⟨[], rest, by simp, by simp, ?_⟩
      rw [List.dropWhile_cons]
      simp
    · have hmem : ' ' ∈ rest := by
        rcases List.mem_cons.mp h with h2 | h2
        · exact absurd h2.symm hc
        · exact h2
      obtain ⟨t, d2, hre, hns, hdw⟩ := ih hmem
      refine ⟨c :: t, d2, by rw [List.cons_append, ← hre], ?_, ?_⟩
      · intro x hx
        rcases List.mem_cons.mp hx with h2 | h2
        · rw [h2]; exact hc
        · exact hns x h2
      · rw [List.dropWhile_cons]
        simp only [hc]
        simpa using hdw

theorem rsplit_decomp (cs : List Char) (h : ' ' ∈ cs) :
    ∃ t, cs = rsplitHead cs ++ ' ' :: t ∧ (∀ c ∈ t, ¬ (c = ' ')) := by
  have hrev : ' ' ∈ cs.reverse := List.mem_reverse.mpr h
  obtain ⟨t, d2, hre, hns, hdw⟩ := dropWhile_space_decomp cs.reverse hrev
  have hrs : rsplitHead cs = d2.reverse := by
    rw [rsplitHead, if_pos h, hdw]
    simp
  refine ⟨t.reverse, ?_, ?_⟩
  · rw [hrs]
    have : cs = cs.reverse.reverse := (List.reverse_reverse cs).symm
    rw [this, hre]
    simp
  · intro c hc
    exact hns c (List.mem_reverse.mp hc)

theorem rsplitHead_length_le (cs : List Char) :
    (rsplitHead cs).length ≤ cs.length := by
  by_cases h : ' ' ∈ cs
  · obtain ⟨t, heq, _⟩ := rsplit_decomp cs h
    have := congrArg List.length heq
    simp only [List.length_append, List.length_cons] at this
    omega
  · rw [rsplitHead, if_neg h]

theorem collectProducts_eq_filterMap (ns : List Json) :
    collectProducts ns = ns.filterMap nodeToProduct := by
  induction ns with
  | nil => rfl
  | cons item rest ih =>
    rw [List.filterMap_cons]
    cases h : nodeToProduct item with
    | none => rw [collectProducts, h]; exact ih
    | some p => rw [collectProducts, h, ih]

theorem jLookup_dictSet_self (kvs : List (String × Json)) (k : String)
    (v : Json) : jLookup (dictSet kvs k v) k = some v := by
  induction kvs with
  | nil => simp [dictSet, jLookup]
  | cons kv rest ih =>
    obtain ⟨k2, w⟩ := kv
    rw [dictSet]
    by_cases h : k2 = k
    · rw [if_pos h, jLookup, if_pos h]
    · rw [if_neg h, jLookup, if_neg h]
      exact ih

theorem jLookup_dictSet_other (kvs : List (String × Json)) (k k2 : String)
    (v : Json) (h : k ≠ k2) :
    jLookup (dictSet kvs k v) k2 = jLookup kvs k2 := by
  induction kvs with
  | nil => simp [dictSet, jLookup, h]
  | cons kv rest ih =>
    obtain ⟨k3, w⟩ := kv
    rw [dictSet]
    by_cases h3 : k3 = k
    · subst h3
      rw [if_pos rfl, jLookup, jLookup, if_neg h]
      rw [if_neg h]
    · rw [if_neg h3, jLookup, jLookup]
      by_cases h4 : k3 = k2
      · rw [if_pos h4, if_pos h4]
      · rw [if_neg h4, if_neg h4]
        exact ih

theorem convertNullEmpty_self (kvs : List (String × Json)) (k : String) :
    ∃ v, jLookup (convertNullEmpty kvs k) k = some v ∧ v ≠ Json.null := by
  rw [convertNullEmpty]
  cases h : jLookup kvs k with
  | none => exact ⟨.str "", jLookup_dictSet_self kvs k _, by simp⟩
  | some v =>
    cases v with
    | null => exact ⟨.str "", jLookup_dictSet_self kvs k _, by simp⟩
    | bool b => exact ⟨.bool b, h, by simp⟩
    | num q => exact ⟨.num q, h, by simp⟩
    | str s => exact ⟨.str s, h, by simp⟩
    | arr xs => exact ⟨.arr xs, h, by simp⟩
    | obj o => exact ⟨.obj o, h, by simp⟩

theorem convertNullEmpty_other (kvs : List (String × Json)) (k k2 : String)
    (h : k ≠ k2) :
    jLookup (convertNullEmpty kvs k) k2 = jLookup kvs k2 := by
  rw [convertNullEmpty]
  cases jLookup kvs k with
  | none => exact jLookup_dictSet_other kvs k k2 _ h
  | some v =>
    cases v with
    | null => exact jLookup_dictSet_other kvs k k2 _ h
    | bool b => rfl
    | num q => rfl
    | str s => rfl
    | arr xs => rfl
    | obj o => rfl

/-! ### Claim theorems -/

/-- C6: `effective_web_price` returns the retail price whenever the web
price is zero or absent (absence is the pydantic default `0.0`), and
returns the web price when it is positive; when the web price is not
positive the result is always the retail price (which is itself `0.0`
when absent, covering the "else zero" clause). -/
theorem C6_effective_web_price (p : PimcoreProduct) :
    (p.web_price = 0 → effective_web_price p = p.retail_price) ∧
    (0 < p.web_price → effective_web_price p = p.web_price) ∧
    (¬ 0 < p.web_price → effective_web_price p = p.retail_price) := by
  have h3 : ¬ 0 < p.web_price → effective_web_price p = p.retail_price := by
    intro h
    rw [effective_web_price, if_neg (by tauto)]
    by_cases hr : p.retail_price = 0
    · rw [if_neg (not_not_intro hr), hr]
    · rw [if_pos hr]
  refine ⟨fun h => h3 (by rw [h]; exact lt_irrefl 0), fun h => ?_, h3⟩
  rw [effective_web_price, if_pos ⟨ne_of_gt h, h⟩]

/-- Witness for C6 at concrete records: a zero web price falls back to
retail, a positive web price is returned as is. -/
theorem C6_effective_web_price_witness :
    effective_web_price priceScenarioProduct = priceScenarioProduct.retail_price ∧
    effective_web_price { sampleProduct with web_price := 7 } = 7 :=
  ⟨(C6_effective_web_price priceScenarioProduct).1 rfl,
    (C6_effective_web_price { sampleProduct with web_price := 7 }).2.1
      (by norm_num)⟩

/-- C4: `selected_price` is `"0.00"` when none of effective web price,
MAP and retail is positive; otherwise it is the decimal string of the
minimum of the positive values among them; and on the specification's
scenario (web 0, MAP 25, retail 30) it is `"25.0"`. -/
theorem C4_selected_price (p : PimcoreProduct) :
    ((∀ x ∈ [effective_web_price p, p.map_price, p.retail_price], ¬ 0 < x) →
      selected_price p = "0.00") ∧
    ((∃ x ∈ [effective_web_price p, p.map_price, p.retail_price], 0 < x) →
      ∃ m, m ∈ [effective_web_price p, p.map_price, p.retail_price] ∧
        0 < m ∧
        (∀ y ∈ [effective_web_price p, p.map_price, p.retail_price],
          0 < y → m ≤ y) ∧
        selected_price p = pyFloatStr m) ∧
    selected_price priceScenarioProduct = "25.0" := by
  have hsel : selected_price p =
      (match [effective_web_price p, p.map_price, p.retail_price].filter
          (fun x => decide (0 < x)) with
        | [] => "0.00"
        | q :: qs => pyFloatStr (pyMin q qs)) := rfl
  refine ⟨?_, ?_, by decide⟩
  · intro hall
    have hfil : [effective_web_price p, p.map_price, p.retail_price].filter
        (fun x => decide (0 < x)) = [] := by
      rw [List.filter_eq_nil_iff]
      intro a ha
      simpa using hall a ha
    rw [hsel, hfil]
  · intro hex
    cases hfil : [effective_web_price p, p.map_price, p.retail_price].filter
        (fun x => decide (0 < x)) with
    | nil =>
      obtain ⟨x, hx, hxpos⟩ := hex
      have := List.filter_eq_nil_iff.mp hfil x hx
      simp [hxpos] at this
    | cons q qs =>
      refine ⟨pyMin q qs, ?_, ?_, ?_, ?_⟩
      · have hm : pyMin q qs ∈ q :: qs := pyMin_mem qs q
        rw [← hfil] at hm
        exact (List.mem_filter.mp hm).1
      · have hm : pyMin q qs ∈ q :: qs := pyMin_mem qs q
        rw [← hfil] at hm
        simpa using (List.mem_filter.mp hm).2
      · intro y hy hypos
        have hyf : y ∈ [effective_web_price p, p.map_price,
            p.retail_price].filter (fun x => decide (0 < x)) :=
          List.mem_filter.mpr ⟨hy, by simpa using hypos⟩
        rw [hfil] at hyf
        exact pyMin_le qs q y hyf
      · rw [hsel, hfil]

/-- Witness for C4: the all-zero record yields `"0.00"` and the scenario
record yields a positive minimum. -/
theorem C4_selected_price_witness :
    selected_price sampleProduct = "0.00" ∧
    selected_price priceScenarioProduct = "25.0" :=
  ⟨(C4_selected_price sampleProduct).1 (by decide),
    (C4_selected_price sampleProduct).2.2⟩

/-- C10: in normal sync mode `main` passes three positional arguments to
a constructor whose `__init__` binds two besides `self`, so engine
construction raises `TypeError` and no fetch, transform or emission phase
is ever reached. -/
theorem C10_engine_construction_type_error :
    mainNormalSync =
      (.error "TypeError: __init__ takes 3 positional arguments but 4 were given",
        [SyncPhase.engineConstruction]) ∧
    syncEngineInitParamCount = 2 ∧ mainSyncEngineArgCount = 3 ∧
    SyncPhase.recordFetch ∉ mainNormalSync.2 ∧
    SyncPhase.recordTransform ∉ mainNormalSync.2 ∧
    SyncPhase.recordEmit ∉ mainNormalSync.2 := by
  refine ⟨rfl, rfl, rfl, by decide, by decide, by decide⟩

/-- C9 as a code-bug exhibit: `SyncEngine.run` never consults the
dry-run entry of its config — with `dryRun := true` and one fetched
product the file is still written with one row, and the outcome is
invariant under flipping the flag. -/
theorem C9_dry_run_still_writes :
    SyncEngine_run [sampleProduct]
        { maxProducts := 5, dryRun := true, delayBetweenProducts := 2,
          delayAfterImage := 3 } =
      { fileWritten := true, rowsWritten := 1 } ∧
    (∀ cfg : SyncConfig, ∀ ps : List PimcoreProduct,
      SyncEngine_run ps cfg =
        SyncEngine_run ps { cfg with dryRun := ¬ cfg.dryRun }) := by
  exact ⟨rfl, fun _ _ => rfl⟩

/-- C7: `fetch_products` is total on every modelled outcome and fails
soft — empty list on a transport error, on malformed JSON, and on a
top-level GraphQL error; on a well-formed listing it returns exactly the
nodes that pass validation, in order, and a node that fails validation is
skipped while the surrounding nodes are kept. -/
theorem C7_fetch_products_fail_soft :
    (∀ m, fetch_products (.requestError m) = []) ∧
    fetch_products .badJson = [] ∧
    (∀ body, jHasKey body "errors" = true → fetch_products (.ok body) = []) ∧
    (∀ ns, fetch_products (.ok (mkListingBody ns)) =
      ns.filterMap nodeToProduct) ∧
    (∀ xs ys bad, nodeToProduct bad = none →
      collectProducts (xs ++ bad :: ys) =
        collectProducts xs ++ collectProducts ys) := by
  refine ⟨fun _ => rfl, rfl, ?_, ?_, ?_⟩
  · intro body h
    rw [fetch_products, if_pos h]
  · intro ns
    have hkey : jHasKey (mkListingBody ns) "errors" = false := rfl
    have hnodes : nodesOf (mkListingBody ns) = some ns := rfl
    rw [fetch_products, if_neg (by rw [hkey]; exact Bool.false_ne_true),
      hnodes]
    exact collectProducts_eq_filterMap ns
  · intro xs ys bad hbad
    rw [collectProducts_eq_filterMap, collectProducts_eq_filterMap,
      collectProducts_eq_filterMap, List.filterMap_append,
      List.filterMap_cons, hbad]

/-- Witness for C7: a body with a top-level error key yields `[]`, and a
concrete batch with an invalid middle node skips exactly that node. -/
theorem C7_fetch_products_fail_soft_witness :
    fetch_products (.ok (.obj [("errors", .arr [])])) = [] ∧
    collectProducts [goodNode1, badNode, goodNode2] =
      collectProducts [goodNode1] ++ collectProducts [goodNode2] :=
  ⟨C7_fetch_products_fail_soft.2.2.1 (.obj [("errors", .arr [])]) rfl,
    C7_fetch_products_fail_soft.2.2.2.2 [goodNode1] [goodNode2] badNode rfl⟩

theorem vOptStrEmpty_some_of_ne_null (kvs : List (String × Json))
    (k : String) (v : Json) (hl : jLookup kvs k = some v)
    (hv : v ≠ Json.null) (hs : (vOptStrEmpty kvs k).isSome = true) :
    ∃ s, vOptStrEmpty kvs k = some (some s) := by
  cases v with
  | null => exact absurd rfl hv
  | str s => exact ⟨s, by rw [vOptStrEmpty, hl]⟩
  | bool b => rw [vOptStrEmpty, hl] at hs; simp at hs
  | num q => rw [vOptStrEmpty, hl] at hs; simp at hs
  | arr xs => rw [vOptStrEmpty, hl] at hs; simp at hs
  | obj o => rw [vOptStrEmpty, hl] at hs; simp at hs

theorem convertedNode_ds (nkvs : List (String × Json)) :
    ∃ v, jLookup (convertedNode nkvs) "Description_Short" = some v ∧
      v ≠ Json.null := by
  obtain ⟨v, hv, hnn⟩ := convertNullEmpty_self nkvs "Description_Short"
  refine ⟨v, ?_, hnn⟩
  rw [convertedNode,
    convertNullEmpty_other _ "WhatsInBox" "Description_Short" (by decide),
    convertNullEmpty_other _ "Specifications_WYSIWYG" "Description_Short"
      (by decide),
    convertNullEmpty_other _ "Description_Medium" "Description_Short"
      (by decide)]
  exact hv

theorem convertedNode_dm (nkvs : List (String × Json)) :
    ∃ v, jLookup (convertedNode nkvs) "Description_Medium" = some v ∧
      v ≠ Json.null := by
  obtain ⟨v, hv, hnn⟩ := convertNullEmpty_self
    (convertNullEmpty nkvs "Description_Short") "Description_Medium"
  refine ⟨v, ?_, hnn⟩
  rw [convertedNode,
    convertNullEmpty_other _ "WhatsInBox" "Description_Medium" (by decide),
    convertNullEmpty_other _ "Specifications_WYSIWYG" "Description_Medium"
      (by decide)]
  exact hv

theorem convertedNode_sw (nkvs : List (String × Json)) :
    ∃ v, jLookup (convertedNode nkvs) "Specifications_WYSIWYG" = some v ∧
      v ≠ Json.null := by
  obtain ⟨v, hv, hnn⟩ := convertNullEmpty_self
    (convertNullEmpty (convertNullEmpty nkvs "Description_Short")
      "Description_Medium") "Specifications_WYSIWYG"
  refine ⟨v, ?_, hnn⟩
  rw [convertedNode,
    convertNullEmpty_other _ "WhatsInBox" "Specifications_WYSIWYG" (by decide)]
  exact hv

theorem convertedNode_wib (nkvs : List (String × Json)) :
    ∃ v, jLookup (convertedNode nkvs) "WhatsInBox" = some v ∧
      v ≠ Json.null := by
  obtain ⟨v, hv, hnn⟩ := convertNullEmpty_self
    (convertNullEmpty (convertNullEmpty (convertNullEmpty nkvs
      "Description_Short") "Description_Medium") "Specifications_WYSIWYG")
    "WhatsInBox"
  exact ⟨v, hv, hnn⟩

theorem nodeKvsOf_shape (nkvs kvs2 : List (String × Json))
    (h : nodeKvsOf nkvs = some kvs2) :
    ∃ w, kvs2 = dictSet (convertedNode nkvs) "image_asset_id" w := by
  rw [nodeKvsOf] at h
  split at h
  · split at h
    · split at h
      · exact ⟨_, (Option.some.inj h).symm⟩
      · exact absurd h (by simp)
    · exact ⟨_, (Option.some.inj h).symm⟩
  · exact ⟨_, (Option.some.inj h).symm⟩

theorem mkPimcoreProduct_desc_fields (kvs : List (String × Json))
    (p : PimcoreProduct) (h : mkPimcoreProduct kvs = some p) :
    ((vOptStrEmpty kvs "Description_Short").isSome = true ∧
      p.description_short = (vOptStrEmpty kvs "Description_Short").getD none) ∧
    ((vOptStrEmpty kvs "Description_Medium").isSome = true ∧
      p.description_medium =
        (vOptStrEmpty kvs "Description_Medium").getD none) ∧
    ((vOptStrEmpty kvs "Specifications_WYSIWYG").isSome = true ∧
      p.specifications_wysiwyg =
        (vOptStrEmpty kvs "Specifications_WYSIWYG").getD none) ∧
    ((vOptStrEmpty kvs "WhatsInBox").isSome = true ∧
      p.whats_in_box = (vOptStrEmpty kvs "WhatsInBox").getD none) := by
  rw [mkPimcoreProduct] at h
  split at h
  · next hg =>
    obtain ⟨h1, h2, h3, h4, h5, h6, h7, h8, h9, h10, h11, h12, h13, h14,
      hrest⟩ := hg
    have hp := Option.some.inj h
    subst hp
    exact ⟨⟨h11, rfl⟩, ⟨h12, rfl⟩, ⟨h13, rfl⟩, ⟨h14, rfl⟩⟩
  · simp at h

/-- C8 (amended): for every record produced by the fetch mapping, the
four markup/description fields that the mapping converts
(`Description_Short`, `Description_Medium`, `Specifications_WYSIWYG`,
`WhatsInBox`) are strings — never null — past the mapping boundary; the
remaining optional textual fields (`Model`, `PartPrefix`,
`ProductWebpage`) are not converted and may stay null. -/
theorem C8_converted_markup_fields_never_null (item : Json)
    (p : PimcoreProduct) (h : nodeToProduct item = some p) :
    p.description_short ≠ none ∧ p.description_medium ≠ none ∧
    p.specifications_wysiwyg ≠ none ∧ p.whats_in_box ≠ none := by
  cases item with
  | null => simp [nodeToProduct] at h
  | bool b => simp [nodeToProduct] at h
  | num q => simp [nodeToProduct] at h
  | str s => simp [nodeToProduct] at h
  | arr xs => simp [nodeToProduct] at h
  | obj ikvs =>
    have h2 : (match jLookup ikvs "node" with
        | some (.obj nkvs) => (nodeKvsOf nkvs).bind mkPimcoreProduct
        | _ => none) = some p := h
    cases hn : jLookup ikvs "node" with
    | none => rw [hn] at h2; simp at h2
    | some v =>
      rw [hn] at h2
      cases v with
      | null => simp at h2
      | bool b => simp at h2
      | num q => simp at h2
      | str s => simp at h2
      | arr xs => simp at h2
      | obj nkvs =>
        have hbind : (nodeKvsOf nkvs).bind mkPimcoreProduct = some p := h2
        cases hk : nodeKvsOf nkvs with
        | none => rw [hk] at hbind; simp at hbind
        | some kvs2 =>
          rw [hk] at hbind
          have hmk : mkPimcoreProduct kvs2 = some p := hbind
          obtain ⟨w, hw⟩ := nodeKvsOf_shape nkvs kvs2 hk
          subst hw
          obtain ⟨⟨hs1, he1⟩, ⟨hs2, he2⟩, ⟨hs3, he3⟩, ⟨hs4, he4⟩⟩ :=
            mkPimcoreProduct_desc_fields _ p hmk
          obtain ⟨v1, hv1, hn1⟩ := convertedNode_ds nkvs
          obtain ⟨v2, hv2, hn2⟩ := convertedNode_dm nkvs
          obtain ⟨v3, hv3, hn3⟩ := convertedNode_sw nkvs
          obtain ⟨v4, hv4, hn4⟩ := convertedNode_wib nkvs
          have hl1 : jLookup (dictSet (convertedNode nkvs) "image_asset_id" w)
              "Description_Short" = some v1 := by
            rw [jLookup_dictSet_other _ _ _ _ (by decide)]; exact hv1
          have hl2 : jLookup (dictSet (convertedNode nkvs) "image_asset_id" w)
              "Description_Medium" = some v2 := by
            rw [jLookup_dictSet_other _ _ _ _ (by decide)]; exact hv2
          have hl3 : jLookup (dictSet (convertedNode nkvs) "image_asset_id" w)
              "Specifications_WYSIWYG" = some v3 := by
            rw [jLookup_dictSet_other _ _ _ _ (by decide)]; exact hv3
          have hl4 : jLookup (dictSet (convertedNode nkvs) "image_asset_id" w)
              "WhatsInBox" = some v4 := by
            rw [jLookup_dictSet_other _ _ _ _ (by decide)]; exact hv4
          obtain ⟨s1, hq1⟩ := vOptStrEmpty_some_of_ne_null _ _ _ hl1 hn1 hs1
          obtain ⟨s2, hq2⟩ := vOptStrEmpty_some_of_ne_null _ _ _ hl2 hn2 hs2
          obtain ⟨s3, hq3⟩ := vOptStrEmpty_some_of_ne_null _ _ _ hl3 hn3 hs3
          obtain ⟨s4, hq4⟩ := vOptStrEmpty_some_of_ne_null _ _ _ hl4 hn4 hs4
          rw [he1, hq1, he2, hq2, he3, hq3, he4, hq4]
          simp

/-- Witness for C8 (amended): a concrete valid node produces a record
whose four converted markup fields are strings. -/
theorem C8_converted_markup_fields_never_null_witness :
    (nodeToProduct goodNode1).isSome = true ∧
    ∀ p, nodeToProduct goodNode1 = some p →
      p.description_short ≠ none ∧ p.description_medium ≠ none ∧
      p.specifications_wysiwyg ≠ none ∧ p.whats_in_box ≠ none :=
  ⟨rfl, fun p h => C8_converted_markup_fields_never_null goodNode1 p h⟩

/-- C8 counterexample: the node `nullOptionalsNode` carries explicit
JSON nulls for `Model` and `PartPrefix` (and no `ProductWebpage`), yet
the mapping constructs the record with those fields still null — so it
is not the case that every optional textual field is converted to a
string before construction. -/
theorem C8_null_optionals_counterexample :
    (nodeToProduct nullOptionalsNode).map PimcoreProduct.model = some none ∧
    (nodeToProduct nullOptionalsNode).map PimcoreProduct.part_prefix_code =
      some none ∧
    (nodeToProduct nullOptionalsNode).map PimcoreProduct.product_webpage =
      some none := by
  exact ⟨rfl, rfl, rfl⟩

/-- C3 counterexample: for a record with a nonempty medium description
the output of `get_sanitized_html` begins with the literal section label
`<h2>Description</h2>`, so the output does contain an `<h2>` tag. -/
theorem C3_h2_in_output_counterexample :
    get_sanitized_html htmlScenarioProduct = "<h2>Description</h2>x" ∧
    hasOccCI "<h2>".data (get_sanitized_html htmlScenarioProduct).data =
      true := by
  exact ⟨rfl, rfl⟩

/-- C3 (amended): the cleaned body content never contains `<h2>` or
`</h2>` (every occurrence in the source markup, after entity unescaping,
is rewritten case-insensitively to `<h3>`/`</h3>`), while the fixed
section labels are emitted as `<h2>` headings; a section whose source
text is empty is omitted entirely, and both sections empty produce the
empty string. -/
theorem C3_sanitized_html_amended (p : PimcoreProduct) :
    hasOccCI "<h2>".data (cleanHtml p.description_medium).data = false ∧
    hasOccCI "</h2>".data (cleanHtml p.description_medium).data = false ∧
    hasOccCI "<h2>".data (cleanHtml p.specifications_wysiwyg).data = false ∧
    hasOccCI "</h2>".data (cleanHtml p.specifications_wysiwyg).data = false ∧
    (optTruthy p.specifications_wysiwyg = false →
      get_sanitized_html p =
        (if optTruthy p.description_medium then
          "<h2>Description</h2>" ++ cleanHtml p.description_medium
        else "")) ∧
    (optTruthy p.description_medium = false →
      optTruthy p.specifications_wysiwyg = false →
      get_sanitized_html p = "") := by
  refine ⟨(cleanHtml_no_h2 _).1, (cleanHtml_no_h2 _).2,
    (cleanHtml_no_h2 _).1, (cleanHtml_no_h2 _).2, ?_, ?_⟩
  · intro hs
    rw [get_sanitized_html, hs]
    simp
  · intro hd hs
    rw [get_sanitized_html, hd, hs]
    simp

/-- Witness for C3 (amended) at concrete records: one nonempty
description section, and the all-empty record giving the empty string. -/
theorem C3_sanitized_html_amended_witness :
    get_sanitized_html htmlScenarioProduct =
      "<h2>Description</h2>" ++ cleanHtml htmlScenarioProduct.description_medium ∧
    get_sanitized_html sampleProduct = "" :=
  ⟨(C3_sanitized_html_amended htmlScenarioProduct).2.2.2.2.1 rfl,
    (C3_sanitized_html_amended sampleProduct).2.2.2.2.2 rfl rfl⟩

theorem product_title_length_le (p : PimcoreProduct) :
    (product_title p).length ≤ 255 := by
  have hrem : remainingOf p = 255 - (baseTitleOf p).length - 4 := rfl
  have hsp : (" " : String).length = 1 := rfl
  have hdots : ("..." : String).length = 3 := rfl
  rw [product_title]
  split
  · next hb =>
    have hmk : (String.mk ((baseTitleOf p).data.take 255)).length =
        ((baseTitleOf p).data.take 255).length := rfl
    rw [hmk, List.length_take]
    omega
  · next hb =>
    split
    · omega
    · next desc hdesc =>
      split
      · omega
      · next hne =>
        split
        · next hfit =>
          simp only [String.length_append]
          rw [hsp]
          have hne2 : ¬ remainingOf p = 0 := fun hr => hne (Or.inr hr)
          omega
        · next hfit =>
          split
          · next hsn =>
            simp only [String.length_append]
            have hmk : (String.mk
                (rsplitHead (desc.data.take (remainingOf p)))).length =
                (rsplitHead (desc.data.take (remainingOf p))).length := rfl
            rw [hmk, hsp, hdots]
            have h4 := rsplitHead_length_le (desc.data.take (remainingOf p))
            have h5 : (desc.data.take (remainingOf p)).length ≤ remainingOf p := by
              rw [List.length_take]
              omega
            omega
          · omega

theorem product_title_of_trunc (p : PimcoreProduct) (d : String)
    (hd : p.description_short = some d) (hb : ¬ 255 ≤ (baseTitleOf p).length)
    (hde : d ≠ "") (hr : remainingOf p ≠ 0)
    (hfit : ¬ d.length ≤ remainingOf p)
    (hsn : rsplitHead (d.data.take (remainingOf p)) ≠ []) :
    product_title p = baseTitleOf p ++ " " ++
      String.mk (rsplitHead (d.data.take (remainingOf p))) ++ "..." := by
  rw [product_title, if_neg hb]
  split
  · next heq => rw [hd] at heq; cases heq
  · next desc hdesc =>
    rw [hd] at hdesc
    injection hdesc with hdd
    subst hdd
    rw [if_neg (by tauto), if_neg hfit, if_pos hsn]

/-- C5 (amended): the title never exceeds 255 characters; when the base
title alone meets or exceeds the maximum it is hard-truncated to 255
characters with no ellipsis; when the appended description snippet is
truncated, `"..."` is appended and — whenever the truncated window
contains a space — the cut occurs at a word boundary (the character of
the source description immediately after the snippet is a space); when
the window contains no space, the snippet is the whole window, i.e. a
hard character-limit cut in the middle of a word. -/
theorem C5_title_truncation_amended (p : PimcoreProduct) :
    (product_title p).length ≤ 255 ∧
    (255 ≤ (baseTitleOf p).length →
      (product_title p).length = 255 ∧
      product_title p = String.mk ((baseTitleOf p).data.take 255)) ∧
    (∀ d, p.description_short = some d →
      ¬ 255 ≤ (baseTitleOf p).length → d ≠ "" → remainingOf p ≠ 0 →
      ¬ d.length ≤ remainingOf p →
      (rsplitHead (d.data.take (remainingOf p)) ≠ [] →
        product_title p = baseTitleOf p ++ " " ++
          String.mk (rsplitHead (d.data.take (remainingOf p))) ++ "...") ∧
      (' ' ∈ d.data.take (remainingOf p) →
        ∃ rest, d.data =
          rsplitHead (d.data.take (remainingOf p)) ++ ' ' :: rest) ∧
      (' ' ∉ d.data.take (remainingOf p) →
        rsplitHead (d.data.take (remainingOf p)) =
          d.data.take (remainingOf p))) := by
  refine ⟨product_title_length_le p, ?_, ?_⟩
  · intro hb
    have heq : product_title p = String.mk ((baseTitleOf p).data.take 255) := by
      rw [product_title, if_pos hb]
    refine ⟨?_, heq⟩
    rw [heq]
    have hmk : (String.mk ((baseTitleOf p).data.take 255)).length =
        ((baseTitleOf p).data.take 255).length := rfl
    have hlen : (baseTitleOf p).length = (baseTitleOf p).data.length := rfl
    rw [hmk, List.length_take]
    omega
  · intro d hd hb hde hr hfit
    refine ⟨product_title_of_trunc p d hd hb hde hr hfit, ?_, ?_⟩
    · intro hsp
      obtain ⟨t, hw, hns⟩ := rsplit_decomp (d.data.take (remainingOf p)) hsp
      refine ⟨t ++ List.drop (remainingOf p) d.data, ?_⟩
      have hsplit := List.take_append_drop (remainingOf p) d.data
      calc d.data = d.data.take (remainingOf p) ++
              List.drop (remainingOf p) d.data := hsplit.symm
        _ = (rsplitHead (d.data.take (remainingOf p)) ++ ' ' :: t) ++
              List.drop (remainingOf p) d.data := by rw [← hw]
        _ = rsplitHead (d.data.take (remainingOf p)) ++
              ' ' :: (t ++ List.drop (remainingOf p) d.data) := by
              simp [List.append_assoc]
    · intro hnsp
      rw [rsplitHead, if_neg hnsp]

set_option maxRecDepth 100000 in
/-- Witness for C5 (amended): the over-long brand is hard-truncated to
exactly 255 characters, and a description with a space inside the window
is cut at the word boundary with the ellipsis appended. -/
theorem C5_title_truncation_amended_witness :
    (product_title hugeBrandProduct).length = 255 ∧
    product_title wordBoundaryProduct =
      baseTitleOf wordBoundaryProduct ++ " " ++
        String.mk (rsplitHead (("ab cd " ++
          String.mk (List.replicate 300 'a')).data.take
            (remainingOf wordBoundaryProduct))) ++ "..." :=
  ⟨((C5_title_truncation_amended hugeBrandProduct).2.1 (by decide)).1,
    ((C5_title_truncation_amended wordBoundaryProduct).2.2
      ("ab cd " ++ String.mk (List.replicate 300 'a')) rfl (by decide)
      (by decide) (by decide) (by decide)).1 (by decide)⟩

set_option maxRecDepth 100000 in
/-- C5 counterexample: a 300-character single-word description is
truncated to the 242-character window with `"..."` appended, although the
cut is not at a word boundary — the source description continues with
`'a'`, not a space, right after the snippet. -/
theorem C5_midword_cut_counterexample :
    product_title longWordProduct =
      String.mk ("Brand VPN ".data ++ List.replicate 242 'a' ++ "...".data) ∧
    longWordProduct.description_short =
      some (String.mk (List.replicate 300 'a')) ∧
    (String.mk (List.replicate 300 'a')).data =
      List.replicate 242 'a' ++ 'a' :: List.replicate 57 'a' ∧
    ¬ 'a' = ' ' ∧
    ' ' ∉ List.replicate 242 'a' := by
  refine ⟨by decide, rfl, by decide, by decide, by decide⟩

theorem execLoop_attempts_le (o : Nat → GOutcome) :
    ∀ l, (execLoop o l).attempts ≤ l.length := by
  intro l
  induction l with
  | nil => exact Nat.le_refl 0
  | cons i rest ih =>
    rw [execLoop]
    cases o i with
    | response body =>
      dsimp only
      by_cases ht : isThrottled body = true
      · rw [if_pos ht]
        simp only [List.length_cons]
        omega
      · rw [if_neg ht]
        simp only [List.length_cons]
        omega
    | transportErr st m =>
      dsimp only
      by_cases hi : i = 2
      · rw [if_pos hi]
        simp only [List.length_cons]
        omega
      · rw [if_neg hi]
        simp only [List.length_cons]
        omega

theorem execLoop_waits_spec (o : Nat → GOutcome) :
    ∀ l, (execLoop o l).waits =
      (l.take (execLoop o l).waits.length).map (backoffFor o) := by
  intro l
  induction l with
  | nil => rfl
  | cons i rest ih =>
    rw [execLoop]
    cases hoi : o i with
    | response body =>
      dsimp only
      by_cases ht : isThrottled body = true
      · rw [if_pos ht]
        dsimp only
        have hb : backoffFor o i = (i + 1) * 5 := by rw [backoffFor, hoi]
        rw [List.length_cons, List.take_cons, List.map_cons, hb]
        · exact congrArg _ ih
        · omega
      · rw [if_neg ht]
        rfl
    | transportErr st m =>
      dsimp only
      by_cases hi : i = 2
      · rw [if_pos hi]
        rfl
      · rw [if_neg hi]
        dsimp only
        have hb : backoffFor o i = (i + 1) * 2 := by rw [backoffFor, hoi]
        rw [List.length_cons, List.take_cons, List.map_cons, hb]
        · exact congrArg _ ih
        · omega

theorem execLoop_diag_spec (o : Nat → GOutcome) :
    ∀ l, (execLoop o l).diag401 =
      (l.take (execLoop o l).attempts).filter (fun i => is401Outcome (o i)) := by
  intro l
  induction l with
  | nil => rfl
  | cons i rest ih =>
    rw [execLoop]
    cases hoi : o i with
    | response body =>
      have h401 : is401Outcome (o i) = false := by rw [hoi]; rfl
      dsimp only
      by_cases ht : isThrottled body = true
      · rw [if_pos ht]
        dsimp only
        rw [List.take_cons, List.filter_cons, h401]
        · simpa using ih
        · omega
      · rw [if_neg ht]
        dsimp only
        rw [List.take_cons, List.filter_cons, h401]
        · simp
        · omega
    | transportErr st m =>
      have h401 : is401Outcome (o i) = decide (st = some 401) := by
        rw [hoi]
        rfl
      dsimp only
      by_cases hi : i = 2
      · rw [if_pos hi]
        dsimp only
        rw [List.take_cons, List.filter_cons, h401]
        · by_cases hst : st = some 401
          · simp [hst]
          · simp [hst]
        · omega
      · rw [if_neg hi]
        dsimp only
        rw [List.take_cons, List.filter_cons, h401]
        · by_cases hst : st = some 401
          · simp [hst, ih]
          · simp [hst, ih]
        · omega

/-- C2: `execute_graphql` makes at most 3 attempts; three consecutive
throttled responses produce the payload with message exactly
`"Max retries exceeded"` after waits of 5, 10 and 15 seconds, with all
three attempts consumed and no further retry; every recorded wait after
attempt `i` is `(i + 1) * 5` seconds for a throttled response and
`(i + 1) * 2` seconds for a transport failure; the 401 diagnostic branch
fires exactly on the consumed attempts whose transport error carries
HTTP status 401; three transport failures exhaust the same budget and
return the request-failure payload. -/
theorem C2_execute_graphql_retries (o : Nat → GOutcome) :
    (execute_graphql o).attempts ≤ 3 ∧
    ((∀ i, i < 3 → isThrottledOutcome (o i) = true) →
      (execute_graphql o).result = maxRetriesJson ∧
      (execute_graphql o).waits = [5, 10, 15] ∧
      (execute_graphql o).attempts = 3) ∧
    ((execute_graphql o).waits =
      (List.range (execute_graphql o).waits.length).map (backoffFor o)) ∧
    ((execute_graphql o).diag401 =
      (List.range (execute_graphql o).attempts).filter
        (fun i => is401Outcome (o i))) ∧
    ((∀ i, i < 3 → isTransportOutcome (o i) = true) →
      (execute_graphql o).result = requestFailedJson (msgOfOutcome (o 2)) ∧
      (execute_graphql o).waits = [2, 4] ∧
      (execute_graphql o).attempts = 3) := by
  have h123 : ([0, 1, 2] : List Nat) = List.range 3 := rfl
  refine ⟨?_, ?_, ?_, ?_, ?_⟩
  · exact execLoop_attempts_le o [0, 1, 2]
  · intro h
    have h0 := h 0 (by omega)
    have h1 := h 1 (by omega)
    have h2 := h 2 (by omega)
    cases ho0 : o 0 with
    | transportErr st m => rw [ho0] at h0; simp [isThrottledOutcome] at h0
    | response b0 =>
      rw [ho0] at h0
      have ht0 : isThrottled b0 = true := h0
      cases ho1 : o 1 with
      | transportErr st m => rw [ho1] at h1; simp [isThrottledOutcome] at h1
      | response b1 =>
        rw [ho1] at h1
        have ht1 : isThrottled b1 = true := h1
        cases ho2 : o 2 with
        | transportErr st m =>
          rw [ho2] at h2; simp [isThrottledOutcome] at h2
        | response b2 =>
          rw [ho2] at h2
          have ht2 : isThrottled b2 = true := h2
          have htr : execute_graphql o =
              ⟨maxRetriesJson, [(0 + 1) * 5, (1 + 1) * 5, (2 + 1) * 5], 3,
                []⟩ := by
            rw [execute_graphql, execLoop, ho0]
            dsimp only
            rw [if_pos ht0, execLoop, ho1]
            dsimp only
            rw [if_pos ht1, execLoop, ho2]
            dsimp only
            rw [if_pos ht2, execLoop]
          rw [htr]
          refine ⟨rfl, by norm_num, rfl⟩
  · have hw := execLoop_waits_spec o [0, 1, 2]
    have hlen : (execLoop o [0, 1, 2]).waits.length =
        min (execLoop o [0, 1, 2]).waits.length 3 := by
      conv_lhs => rw [hw]
      rw [List.length_map, List.length_take]
      rfl
    have hle : (execLoop o [0, 1, 2]).waits.length ≤ 3 := by omega
    rw [execute_graphql]
    conv_lhs => rw [hw]
    rw [h123] at hle ⊢
    rw [List.take_range, Nat.min_eq_left hle]
  · have hd := execLoop_diag_spec o [0, 1, 2]
    have hle : (execLoop o [0, 1, 2]).attempts ≤ 3 :=
      execLoop_attempts_le o [0, 1, 2]
    rw [execute_graphql]
    conv_lhs => rw [hd]
    rw [h123] at hle ⊢
    rw [List.take_range, Nat.min_eq_left hle]
  · intro h
    have h0 := h 0 (by omega)
    have h1 := h 1 (by omega)
    have h2 := h 2 (by omega)
    cases ho0 : o 0 with
    | response b0 => rw [ho0] at h0; simp [isTransportOutcome] at h0
    | transportErr st0 m0 =>
      cases ho1 : o 1 with
      | response b1 => rw [ho1] at h1; simp [isTransportOutcome] at h1
      | transportErr st1 m1 =>
        cases ho2 : o 2 with
        | response b2 => rw [ho2] at h2; simp [isTransportOutcome] at h2
        | transportErr st2 m2 =>
          have htr : execute_graphql o =
              ⟨requestFailedJson m2, [(0 + 1) * 2, (1 + 1) * 2], 3,
                (execute_graphql o).diag401⟩ := by
            rw [execute_graphql, execLoop, ho0]
            dsimp only
            rw [if_neg (by omega), execLoop, ho1]
            dsimp only
            rw [if_neg (by omega), execLoop, ho2]
            dsimp only
            rw [if_pos rfl]
          rw [htr]
          refine ⟨rfl, by norm_num, rfl⟩

/-- Witness for C2: the constant-throttle oracle exhausts the budget with
waits 5, 10, 15 and the exact "Max retries exceeded" payload; the
constant-401 oracle exhausts it with waits 2, 4 and the request-failure
payload. -/
theorem C2_execute_graphql_retries_witness :
    (execute_graphql oracleAllThrottled).result = maxRetriesJson ∧
    (execute_graphql oracleAllThrottled).waits = [5, 10, 15] ∧
    (execute_graphql oracleAllThrottled).attempts = 3 ∧
    (execute_graphql oracleAll401).result =
      requestFailedJson "401 Client Error" ∧
    (execute_graphql oracleAll401).waits = [2, 4] :=
  have h1 := (C2_execute_graphql_retries oracleAllThrottled).2.1
    (fun _ _ => rfl)
  have h2 := (C2_execute_graphql_retries oracleAll401).2.2.2.2
    (fun _ _ => rfl)
  ⟨h1.1, h1.2.1, h1.2.2, h2.1, h2.2.1⟩

/-- C1 counterexample: a create response with a "handle already taken"
user error, a lookup that finds the existing id `gid1`, and an update
call whose response carries a top-level error payload — `upsert_product`
returns `None` although an identifier was found by the lookup, so it is
not the case that it always returns the found identifier. -/
theorem C1_update_error_counterexample :
    getProductCreate crTaken = some pcTaken ∧
    hasTaken pcTaken = true ∧
    foundGid frFound = some (.str "gid1") ∧
    (upsert_product crTaken frFound urFail pdSample).1 = none := by
  exact ⟨rfl, rfl, rfl, rfl⟩

/-- C1 (amended): on a create response whose user errors contain the
substring "taken" (case-insensitively), `upsert_product` looks up the
existing product by handle; if an identifier is found it re-issues the
payload as an update carrying that identifier and returns that
identifier — unless the update response itself carries a top-level error
payload, in which case it returns `None`; it returns `None` when the
create fails for any other reason, when no identifier is recoverable
from the create or the lookup, or when the lookup after the conflict
itself errors. -/
theorem C1_upsert_conflict_amended (cr fr ur : Json)
    (pd : List (String × Json)) :
    (getProductCreate cr = none → (upsert_product cr fr ur pd).1 = none) ∧
    (∀ pc, getProductCreate cr = some pc →
      (hasTaken pc = false →
        (upsert_product cr fr ur pd).1 = createOutcome pc ∧
        (upsert_product cr fr ur pd).2 = [.create (.obj pd)]) ∧
      (hasTaken pc = true →
        (jHasKey fr "errors" = true →
          (upsert_product cr fr ur pd).1 = none) ∧
        (jHasKey fr "errors" = false → foundGid fr = none →
          (upsert_product cr fr ur pd).1 = createOutcome pc) ∧
        (∀ g, jHasKey fr "errors" = false → foundGid fr = some g →
          (upsert_product cr fr ur pd).2 =
            [.create (.obj pd),
              .findByHandle ((jLookup pd "handle").getD .null),
              .update (.obj (dictSet pd "id" g))] ∧
          (jHasKey ur "errors" = true →
            (upsert_product cr fr ur pd).1 = none) ∧
          (jHasKey ur "errors" = false →
            (upsert_product cr fr ur pd).1 = some g)))) := by
  constructor
  · intro h
    rw [upsert_product, h]
  · intro pc hpc
    constructor
    · intro hnt
      rw [upsert_product, hpc]
      dsimp only
      rw [if_neg (by simp [hnt])]
      exact ⟨rfl, rfl⟩
    · intro ht
      refine ⟨?_, ?_, ?_⟩
      · intro hfe
        rw [upsert_product, hpc]
        dsimp only
        rw [if_pos ht, if_pos hfe]
      · intro hfe hgid
        rw [upsert_product, hpc]
        dsimp only
        rw [if_pos ht, if_neg (by simp [hfe]), hgid]
      · intro g hfe hgid
        rw [upsert_product, hpc]
        dsimp only
        rw [if_pos ht, if_neg (by simp [hfe]), hgid]
        dsimp only
        refine ⟨by split <;> simp, ?_, ?_⟩
        · intro hue
          rw [if_pos hue]
        · intro hue
          rw [if_neg (by simp [hue])]

/-- Witness for C1 (amended): with the concrete conflict fixtures the
upsert returns the found identifier when the update response is clean,
and `None` when the update response carries a top-level error payload. -/
theorem C1_upsert_conflict_amended_witness :
    (upsert_product crTaken frFound urOk pdSample).1 = some (.str "gid1") ∧
    (upsert_product crTaken frFound urFail pdSample).1 = none :=
  have h := ((C1_upsert_conflict_amended crTaken frFound urOk pdSample).2
    pcTaken rfl).2 rfl
  have h2 := ((C1_upsert_conflict_amended crTaken frFound urFail pdSample).2
    pcTaken rfl).2 rfl
  ⟨(h.2.2 (.str "gid1") rfl rfl).2.2 rfl,
    (h2.2.2 (.str "gid1") rfl rfl).2.1 rfl⟩
